import Mathlib

/-!
Shallow embedding of the presence / read-receipt logic of the
Flask-SocketIO chatroom server (`src/app.py`).

Python dictionaries are modelled as association lists (`alookup` /
`aset` / `adel`), Python sets as duplicate-free lists (`listInsert` /
`listRemove`).  Socket identifiers (`request.sid`) are natural numbers,
usernames and room names are strings.  The `threading.Timer` objects
stored in `pending_disconnects` are not modelled as values: cancelling a
timer corresponds to deleting its key from the map, and a timer firing
corresponds to applying `remove_user_immediately` to the state.  Event
emission (`emit` / `socketio.emit`) is modelled by returning a list of
`Event` values alongside the new state.
-/

/-- Value stored in `online_users`: the per-connection record
`\x7b'username': str, 'room': str\x7d`. -/
structure UserInfo where
  username : String
  room : String
deriving DecidableEq, Repr

/-- A row of the `Message` table: id, room, username, content and a
creation stamp (the `timestamp` column, abstracted to a number that
increases with insertion order). -/
structure Msg where
  id : Nat
  room : String
  username : String
  content : String
  created_at : Nat
deriving DecidableEq, Repr

/-- The dictionary produced by `Message.to_dict`. -/
structure MsgDict where
  mid : Nat
  mroom : String
  musername : String
  mcontent : String
  mtimestamp : Nat
  read_by : List String
deriving DecidableEq, Repr

/-- Outbound socket events emitted by the handlers, with their payloads. -/
inductive Event where
  | errorEv (message : String)
  | roomJoinedEv (room username : String) (messages : List MsgDict)
      (roomUsersL globalOnlineL : List String)
  | userJoinedEv (username : String) (roomUsersL globalOnlineL : List String)
      (room : String)
  | userLeftEv (username : String) (roomUsersL globalOnlineL : List String)
      (room : String)
  | leftRoomEv (room : String)
  | readReceiptsUpdatedEv (updates : List (Nat × List String)) (reader : String)
      (room : String)
deriving DecidableEq, Repr

/-- Association-list lookup, the model of Python `d[k]` / `d.get(k)`. -/
def alookup {κ α : Type} [DecidableEq κ] (k : κ) : List (κ × α) → Option α
  | [] => none
  | (k', v) :: rest => if k' = k then some v else alookup k rest

/-- Association-list upsert, the model of Python `d[k] = v` (overwriting in
place, appending when the key is fresh). -/
def aset {κ α : Type} [DecidableEq κ] (k : κ) (v : α) : List (κ × α) → List (κ × α)
  | [] => [(k, v)]
  | (k', v') :: rest => if k' = k then (k, v) :: rest else (k', v') :: aset k v rest

/-- Association-list key deletion, the model of Python `del d[k]` /
`d.pop(k)` (a dict holds each key at most once, so deleting the key is
removing every pair carrying it). -/
def adel {κ α : Type} [DecidableEq κ] (k : κ) (l : List (κ × α)) : List (κ × α) :=
  l.filter (fun p => decide (p.1 ≠ k))

/-- Set insertion on duplicate-free lists, the model of Python `s.add(x)`. -/
def listInsert {α : Type} [DecidableEq α] (x : α) (l : List α) : List α :=
  if x ∈ l then l else l ++ [x]

/-- Set removal, the model of Python `s.discard(x)` (and `s.remove(x)` when
the element is present). -/
def listRemove {α : Type} [DecidableEq α] (x : α) (l : List α) : List α :=
  l.filter (fun y => decide (y ≠ x))

/-- The whole mutable state of the server: the four presence-tracking
globals, the `explicit_leaves` set and the two database tables. -/
structure ChatState where
  online_users : List (Nat × UserInfo)
  room_users : List (String × List String)
  global_online : List String
  pending_disconnects : List ((String × String) × Nat)
  explicit_leaves : List Nat
  messages : List Msg
  receipts : List (Nat × String)
deriving DecidableEq, Repr

/-- The state at module load: every global empty, both tables empty. -/
def initialState : ChatState :=
  { online_users := [], room_users := [], global_online := [],
    pending_disconnects := [], explicit_leaves := [],
    messages := [], receipts := [] }

/-- `get_room_users(room)`: `list(room_users.get(room, set()))`. -/
def get_room_users (room : String) (s : ChatState) : List String :=
  (alookup room s.room_users).getD []

/-- `get_global_online()`: `list(global_online)`. -/
def get_global_online (s : ChatState) : List String :=
  s.global_online

/-- `Message.to_dict`: the message row plus the usernames of its read
receipts. -/
def msg_to_dict (s : ChatState) (m : Msg) : MsgDict :=
  { mid := m.id, mroom := m.room, musername := m.username,
    mcontent := m.content, mtimestamp := m.created_at,
    read_by := (s.receipts.filter (fun rc => decide (rc.1 = m.id))).map (·.2) }

/-- `add_user_to_room(sid, username, room)`: cancels any pending disconnect
for `(username, room)`, upserts the `online_users` entry for `sid`, adds
the username to the room set (creating it when absent) and to
`global_online`. -/
def add_user_to_room (sid : Nat) (username room : String) (s : ChatState) :
    ChatState :=
  let pend := adel (username, room) s.pending_disconnects
  let ou := aset sid { username := username, room := room } s.online_users
  let ru :=
    match alookup room s.room_users with
    | none => aset room [username] s.room_users
    | some us => aset room (listInsert username us) s.room_users
  { s with pending_disconnects := pend, online_users := ou, room_users := ru,
           global_online := listInsert username s.global_online }

/-- Removal of `(room, username)` from the `room_users` dict: discard the
username from the room's set and delete the room key when the set became
empty — the body of

```
if room in room_users:
    room_users[room].discard(username)
    if not room_users[room]:
        del room_users[room]
``` -/
def removeFromRoom (room username : String)
    (ru : List (String × List String)) : List (String × List String) :=
  match alookup room ru with
  | none => ru
  | some us =>
    let us' := listRemove username us
    if us' = [] then adel room ru else aset room us' ru

/-- `remove_user_immediately(username, room)`: the grace-timer callback.
Deletes the pending-disconnect entry when present, removes the username
from the room set, drops the username from `global_online` when no live
`online_users` entry carries it, and emits one `user_left` to the room
(with the post-removal snapshots). -/
def remove_user_immediately (username room : String) (s : ChatState) :
    ChatState × List Event :=
  let pend := adel (username, room) s.pending_disconnects
  let ru := removeFromRoom room username s.room_users
  let still_online := s.online_users.any (fun p => decide (p.2.username = username))
  let glob := if still_online then s.global_online
              else listRemove username s.global_online
  let s' := { s with pending_disconnects := pend, room_users := ru,
                     global_online := glob }
  (s', [Event.userLeftEv username (get_room_users room s') (get_global_online s')
          room])

/-- `schedule_user_removal(sid, username, room)`: cancels any existing timer
for the key and stores a fresh pending-disconnect entry
`\x7b'timer': timer, 'sid': sid\x7d` under `(username, room)`. -/
def schedule_user_removal (sid : Nat) (username room : String) (s : ChatState) :
    ChatState :=
  { s with
    pending_disconnects := aset (username, room) sid s.pending_disconnects }

/-- `remove_user_from_tracking(sid, immediate)`: pops the `online_users`
entry (returning `none` when absent).  With `immediate = true` it removes
the username from the room set, drops it from `global_online` when no
other live entry carries the username, and cancels the pending disconnect
for `(username, room)`.  With `immediate = false` it schedules a grace
removal unless another live entry for the same `(username, room)` remains. -/
def remove_user_from_tracking (sid : Nat) (immediate : Bool) (s : ChatState) :
    ChatState × Option UserInfo :=
  match alookup sid s.online_users with
  | none => (s, none)
  | some info =>
    let ou := adel sid s.online_users
    let s1 := { s with online_users := ou }
    if immediate then
      let ru := removeFromRoom info.room info.username s1.room_users
      let still_online := ou.any (fun p => decide (p.2.username = info.username))
      let glob := if still_online then s1.global_online
                  else listRemove info.username s1.global_online
      let pend := adel (info.username, info.room) s1.pending_disconnects
      ({ s1 with room_users := ru, global_online := glob,
                 pending_disconnects := pend }, some info)
    else
      let still_in_room := ou.any (fun p =>
        decide (p.2.username = info.username) && decide (p.2.room = info.room))
      if still_in_room then (s1, some info)
      else (schedule_user_removal sid info.username info.room s1, some info)

/-- `handle_disconnect()`: consumes the explicit-leave flag when set (doing
nothing further), otherwise pops the tracking entry with the grace-period
path.  Emits nothing. -/
def handle_disconnect (sid : Nat) (s : ChatState) : ChatState × List Event :=
  if sid ∈ s.explicit_leaves then
    ({ s with explicit_leaves := listRemove sid s.explicit_leaves }, [])
  else
    match alookup sid s.online_users with
    | none => (s, [])
    | some _ => ((remove_user_from_tracking sid false s).1, [])

/-- Python `str.strip()`: drop leading and trailing whitespace. -/
def pyStrip (s : String) : String :=
  ⟨((s.data.dropWhile Char.isWhitespace).reverse.dropWhile
      Char.isWhitespace).reverse⟩

/-- The duplicate-username guard of `handle_join`: the username is in the
room's set, this is not a grace-window reconnect, and some live
`online_users` entry other than the caller's holds `(username, room)`. -/
def duplicate_guard (sid : Nat) (username room : String) (s : ChatState) : Bool :=
  (match alookup room s.room_users with
   | none => false
   | some us => decide (username ∈ us)) &&
  !(alookup (username, room) s.pending_disconnects).isSome &&
  s.online_users.any (fun p =>
    decide (p.2.username = username) && decide (p.2.room = room) &&
    decide (p.1 ≠ sid))

/-- `Message.query.filter_by(room=room).order_by(timestamp.asc()).all()`,
rendered through `to_dict`: the stored messages of the room in insertion
order. -/
def message_history (room : String) (s : ChatState) : List MsgDict :=
  (s.messages.filter (fun m => decide (m.room = room))).map (msg_to_dict s)

/-- `handle_join(data)`: validates the trimmed username and room, rejects a
duplicate username held by a distinct live connection (unless the join is
a grace-window reconnect), otherwise registers the connection, sends
`room_joined` to the caller and broadcasts `user_joined` to the room
only when the join is not a reconnect. -/
def handle_join (sid : Nat) (dataUsername dataRoom : String) (s : ChatState) :
    ChatState × List Event :=
  let username := pyStrip dataUsername
  let room := pyStrip dataRoom
  if username = "" ∨ room = "" then
    (s, [Event.errorEv "Username and room are required"])
  else
    let is_reconnecting := (alookup (username, room) s.pending_disconnects).isSome
    if duplicate_guard sid username room s then
      (s, [Event.errorEv ("Username \"" ++ username ++
            "\" is already taken in this room")])
    else
      let should_notify_join := !is_reconnecting
      let s' := add_user_to_room sid username room s
      let joined := Event.roomJoinedEv room username (message_history room s')
        (get_room_users room s') (get_global_online s')
      if should_notify_join then
        (s', [joined, Event.userJoinedEv username (get_room_users room s')
                (get_global_online s') room])
      else
        (s', [joined])

/-- `handle_leave(data)`: flags the sid in `explicit_leaves`, removes the
tracking entry immediately, and when an entry existed broadcasts
`user_left` to the room and confirms `left_room` to the caller. -/
def handle_leave (sid : Nat) (s : ChatState) : ChatState × List Event :=
  let s1 := { s with explicit_leaves := listInsert sid s.explicit_leaves }
  let res := remove_user_from_tracking sid true s1
  match res.2 with
  | none => (res.1, [])
  | some info =>
    (res.1, [Event.userLeftEv info.username (get_room_users info.room res.1)
               (get_global_online res.1) info.room,
             Event.leftRoomEv info.room])

/-- `Message.query.filter_by(id=msg_id, room=room).first()`. -/
def find_message (msg_id : Nat) (room : String) (msgs : List Msg) : Option Msg :=
  msgs.find? (fun m => decide (m.id = msg_id) && decide (m.room = room))

/-- The `for msg_id in message_ids` loop of `handle_mark_read`: walks the
ids, skipping ids with no message in the caller's room and ids already
read by the caller, and accumulates the new receipt rows and the list of
updated message ids.  The session's pending adds are visible to the
subsequent existence queries (autoflush), so the receipt list is extended
as the loop runs. -/
def markReadLoop (username room : String) (msgs : List Msg) :
    List Nat → List (Nat × String) → List Nat →
    List (Nat × String) × List Nat
  | [], rcs, upd => (rcs, upd)
  | msg_id :: rest, rcs, upd =>
    match find_message msg_id room msgs with
    | none => markReadLoop username room msgs rest rcs upd
    | some _ =>
      if rcs.any (fun rc => decide (rc.1 = msg_id) && decide (rc.2 = username)) then
        markReadLoop username room msgs rest rcs upd
      else
        markReadLoop username room msgs rest (rcs ++ [(msg_id, username)])
          (upd ++ [msg_id])

/-- `handle_mark_read(data)`: returns early on an empty id list or an
unregistered sid; otherwise runs the receipt-creation loop and, when at
least one message changed, commits the new receipts and broadcasts one
aggregated `read_receipts_updated` event carrying each updated message's
refreshed read-by list and the reader. -/
def handle_mark_read (sid : Nat) (message_ids : List Nat) (s : ChatState) :
    ChatState × List Event :=
  if message_ids = [] then (s, [])
  else
    match alookup sid s.online_users with
    | none => (s, [])
    | some info =>
      let res := markReadLoop info.username info.room s.messages message_ids
        s.receipts []
      if res.2 = [] then (s, [])
      else
        let s' := { s with receipts := res.1 }
        let updates := res.2.filterMap (fun msg_id =>
          (s'.messages.find? (fun m => decide (m.id = msg_id))).map (fun _ =>
            (msg_id, (s'.receipts.filter
              (fun rc => decide (rc.1 = msg_id))).map (·.2))))
        (s', [Event.readReceiptsUpdatedEv updates info.username info.room])

/-- The four Presence Registry mutators of the spec, as trace operations:
`register` is `add_user_to_room`, the two unregisters are
`remove_user_from_tracking` with and without `immediate`, and `expire` is
the grace-timer callback `remove_user_immediately`. -/
inductive Op where
  | register (sid : Nat) (username room : String)
  | unregExplicit (sid : Nat)
  | unregGraceful (sid : Nat)
  | expire (username room : String)
deriving DecidableEq, Repr

/-- Apply one trace operation to the state (events discarded). -/
def applyOp (s : ChatState) (op : Op) : ChatState :=
  match op with
  | Op.register sid u r => add_user_to_room sid u r s
  | Op.unregExplicit sid => (remove_user_from_tracking sid true s).1
  | Op.unregGraceful sid => (remove_user_from_tracking sid false s).1
  | Op.expire u r => (remove_user_immediately u r s).1

/-- Run a list of trace operations from a state. -/
def runOps (s : ChatState) (ops : List Op) : ChatState :=
  ops.foldl applyOp s

/-- Some live `online_users` entry carries the username. -/
def livePresence (u : String) (s : ChatState) : Prop :=
  ∃ p ∈ s.online_users, p.2.username = u

/-- Some pending disconnect is keyed by the username (in any room). -/
def pendingPresence (u : String) (s : ChatState) : Prop :=
  ∃ q ∈ s.pending_disconnects, q.1.1 = u

instance (u : String) (s : ChatState) : Decidable (livePresence u s) :=
  inferInstanceAs (Decidable (∃ p ∈ s.online_users, p.2.username = u))

instance (u : String) (s : ChatState) : Decidable (pendingPresence u s) :=
  inferInstanceAs (Decidable (∃ q ∈ s.pending_disconnects, q.1.1 = u))

/-- States reachable from `initialState` by register / explicit-unregister /
graceful-unregister / expire traces in which every `register` uses a
connection id with no current `online_users` entry, and all `register`
and `expire` operations for a username name that username's single room
`ρ u`. -/
inductive ReachableR (ρ : String → String) : ChatState → Prop where
  | init : ReachableR ρ initialState
  | register {s : ChatState} (sid : Nat) (u : String) :
      ReachableR ρ s → alookup sid s.online_users = none →
      ReachableR ρ (applyOp s (Op.register sid u (ρ u)))
  | unregExplicit {s : ChatState} (sid : Nat) :
      ReachableR ρ s → ReachableR ρ (applyOp s (Op.unregExplicit sid))
  | unregGraceful {s : ChatState} (sid : Nat) :
      ReachableR ρ s → ReachableR ρ (applyOp s (Op.unregGraceful sid))
  | expire {s : ChatState} (u : String) :
      ReachableR ρ s → ReachableR ρ (applyOp s (Op.expire u (ρ u)))

/-- Number of `user_left` events in a list. -/
def countUserLeft (es : List Event) : Nat :=
  (es.filter (fun e =>
    match e with
    | Event.userLeftEv _ _ _ _ => true
    | _ => false)).length

/-- Number of `user_joined` events in a list. -/
def countUserJoined (es : List Event) : Nat :=
  (es.filter (fun e =>
    match e with
    | Event.userJoinedEv _ _ _ _ => true
    | _ => false)).length

/-! Lemmas about the dictionary and set primitives. -/

theorem mem_listInsert {α : Type} [DecidableEq α] (a b : α) (l : List α) :
    a ∈ listInsert b l ↔ a ∈ l ∨ a = b := by
  unfold listInsert
  split
  · constructor
    · exact Or.inl
    · rintro (h | rfl) <;> assumption
  · simp [List.mem_append]

theorem mem_listRemove {α : Type} [DecidableEq α] (a b : α) (l : List α) :
    a ∈ listRemove b l ↔ a ∈ l ∧ a ≠ b := by
  simp [listRemove, List.mem_filter]

theorem mem_adel {κ α : Type} [DecidableEq κ] (p : κ × α) (k : κ)
    (l : List (κ × α)) : p ∈ adel k l ↔ p ∈ l ∧ p.1 ≠ k := by
  simp [adel, List.mem_filter]

theorem adel_cons {κ α : Type} [DecidableEq κ] (k : κ) (p : κ × α)
    (l : List (κ × α)) :
    adel k (p :: l) = if p.1 = k then adel k l else p :: adel k l := by
  by_cases hp : p.1 = k <;> simp [adel, List.filter_cons, hp]

theorem alookup_adel_self {κ α : Type} [DecidableEq κ] (k : κ)
    (l : List (κ × α)) : alookup k (adel k l) = none := by
  induction l with
  | nil => rfl
  | cons p rest ih =>
    obtain ⟨pk, pv⟩ := p
    rw [adel_cons]
    by_cases h : pk = k
    · simpa [h] using ih
    · simpa [h, alookup] using ih

theorem alookup_adel_ne {κ α : Type} [DecidableEq κ] {k' k : κ}
    (l : List (κ × α)) (h : k' ≠ k) :
    alookup k' (adel k l) = alookup k' l := by
  induction l with
  | nil => rfl
  | cons p rest ih =>
    obtain ⟨pk, pv⟩ := p
    rw [adel_cons]
    by_cases hp : pk = k
    · have hne : pk ≠ k' := by rw [hp]; exact Ne.symm h
      rw [if_pos hp, ih]
      simp [alookup, hne]
    · rw [if_neg hp]
      by_cases hk' : pk = k'
      · simp [alookup, hk']
      · simp [alookup, hk', ih]

theorem alookup_aset_self {κ α : Type} [DecidableEq κ] (k : κ) (v : α)
    (l : List (κ × α)) : alookup k (aset k v l) = some v := by
  induction l with
  | nil => simp [aset, alookup]
  | cons p rest ih =>
    obtain ⟨pk, pv⟩ := p
    by_cases h : pk = k
    · simp [aset, h, alookup]
    · simpa [aset, h, alookup] using ih

theorem alookup_aset_ne {κ α : Type} [DecidableEq κ] {k' k : κ} (v : α)
    (l : List (κ × α)) (h : k' ≠ k) :
    alookup k' (aset k v l) = alookup k' l := by
  induction l with
  | nil => simp [aset, alookup, Ne.symm h]
  | cons p rest ih =>
    obtain ⟨pk, pv⟩ := p
    by_cases hp : pk = k
    · have hne : pk ≠ k' := by rw [hp]; exact Ne.symm h
      simp only [aset, if_pos hp, alookup, if_neg (Ne.symm h), if_neg hne]
    · simp only [aset, if_neg hp]
      by_cases hk' : pk = k'
      · simp [alookup, hk']
      · simp [alookup, hk', ih]

theorem aset_of_alookup_none {κ α : Type} [DecidableEq κ] {k : κ} (v : α)
    {l : List (κ × α)} (h : alookup k l = none) :
    aset k v l = l ++ [(k, v)] := by
  induction l with
  | nil => rfl
  | cons p rest ih =>
    by_cases hp : p.1 = k
    · simp [alookup, hp] at h
    · simp [alookup, hp] at h
      simp [aset, hp, ih h]

theorem mem_aset_self {κ α : Type} [DecidableEq κ] (k : κ) (v : α)
    (l : List (κ × α)) : (k, v) ∈ aset k v l := by
  induction l with
  | nil => simp [aset]
  | cons p rest ih =>
    by_cases hp : p.1 = k
    · simp [aset, hp]
    · simp [aset, hp]
      exact Or.inr ih

theorem mem_aset_of_key_ne {κ α : Type} [DecidableEq κ] {p : κ × α} {k : κ}
    (v : α) (l : List (κ × α)) (h : p.1 ≠ k) :
    p ∈ aset k v l ↔ p ∈ l := by
  induction l with
  | nil =>
    simp [aset]
    intro hh
    exact absurd (congrArg Prod.fst hh) h
  | cons q rest ih =>
    by_cases hq : q.1 = k
    · constructor
      · intro hm
        simp [aset, hq] at hm
        rcases hm with hm | hm
        · exact absurd (congrArg Prod.fst hm) h
        · subst hq
          exact List.mem_cons_of_mem _ hm
      · intro hm
        rcases List.mem_cons.mp hm with hm | hm
        · subst hm
          exact absurd hq h
        · simp [aset, hq]
          exact Or.inr hm
    · simp only [aset, if_neg hq, List.mem_cons] at ih ⊢
      exact or_congr Iff.rfl ih

theorem alookup_mem {κ α : Type} [DecidableEq κ] {k : κ} {v : α}
    {l : List (κ × α)} (h : alookup k l = some v) : (k, v) ∈ l := by
  induction l with
  | nil => simp [alookup] at h
  | cons p rest ih =>
    obtain ⟨pk, pv⟩ := p
    by_cases hp : pk = k
    · simp only [alookup, if_pos hp, Option.some.injEq] at h
      subst hp
      subst h
      exact List.mem_cons_self _ _
    · simp only [alookup, if_neg hp] at h
      exact List.mem_cons_of_mem _ (ih h)

theorem alookup_none_not_mem {κ α : Type} [DecidableEq κ] {k : κ}
    {l : List (κ × α)} (h : alookup k l = none) : ∀ v, (k, v) ∉ l := by
  induction l with
  | nil => intro v hv; simp at hv
  | cons p rest ih =>
    obtain ⟨pk, pv⟩ := p
    by_cases hp : pk = k
    · simp [alookup, hp] at h
    · simp only [alookup, if_neg hp] at h
      intro v hv
      rcases List.mem_cons.mp hv with hv | hv
      · injection hv with h1 h2
        exact hp h1.symm
      · exact ih h v hv

theorem alookup_none_key_not_mem {κ α : Type} [DecidableEq κ] {k : κ}
    {l : List (κ × α)} (h : alookup k l = none) : k ∉ l.map Prod.fst := by
  intro hm
  rcases List.mem_map.mp hm with ⟨⟨pk, pv⟩, hp, hk⟩
  dsimp at hk
  subst hk
  exact alookup_none_not_mem h pv hp

theorem nodup_val_unique {κ α : Type} [DecidableEq κ] {k : κ} {v v' : α}
    {l : List (κ × α)} (hn : (l.map Prod.fst).Nodup)
    (h1 : (k, v) ∈ l) (h2 : (k, v') ∈ l) : v = v' := by
  induction l with
  | nil => simp at h1
  | cons p rest ih =>
    obtain ⟨pk, pv⟩ := p
    simp only [List.map_cons, List.nodup_cons] at hn
    rcases List.mem_cons.mp h1 with h1h | h1t <;>
      rcases List.mem_cons.mp h2 with h2h | h2t
    · injection h1h with ha hb
      injection h2h with hc hd
      rw [hb, hd]
    · exfalso
      injection h1h with ha hb
      apply hn.1
      rw [← ha]
      exact List.mem_map.mpr ⟨(k, v'), h2t, rfl⟩
    · exfalso
      injection h2h with ha hb
      apply hn.1
      rw [← ha]
      exact List.mem_map.mpr ⟨(k, v), h1t, rfl⟩
    · exact ih hn.2 h1t h2t

theorem keys_adel_sublist {κ α : Type} [DecidableEq κ] (k : κ)
    (l : List (κ × α)) :
    ((adel k l).map Prod.fst).Sublist (l.map Prod.fst) :=
  (List.filter_sublist l).map Prod.fst


/-! Equation lemmas for the presence operations. -/

theorem add_user_to_room_online (sid : Nat) (u r : String) (s : ChatState) :
    (add_user_to_room sid u r s).online_users =
      aset sid { username := u, room := r } s.online_users := rfl

theorem add_user_to_room_pending (sid : Nat) (u r : String) (s : ChatState) :
    (add_user_to_room sid u r s).pending_disconnects =
      adel (u, r) s.pending_disconnects := rfl

theorem add_user_to_room_global (sid : Nat) (u r : String) (s : ChatState) :
    (add_user_to_room sid u r s).global_online =
      listInsert u s.global_online := rfl

theorem add_user_to_room_explicit (sid : Nat) (u r : String) (s : ChatState) :
    (add_user_to_room sid u r s).explicit_leaves = s.explicit_leaves := rfl

theorem ruft_of_alookup_none {sid : Nat} {s : ChatState}
    (imm : Bool) (h : alookup sid s.online_users = none) :
    remove_user_from_tracking sid imm s = (s, none) := by
  unfold remove_user_from_tracking
  rw [h]

theorem ruft_true_of_alookup_some {sid : Nat} {s : ChatState} {info : UserInfo}
    (h : alookup sid s.online_users = some info) :
    remove_user_from_tracking sid true s =
      ({ s with
         online_users := adel sid s.online_users,
         room_users := removeFromRoom info.room info.username s.room_users,
         global_online :=
           if (adel sid s.online_users).any
               (fun p => decide (p.2.username = info.username)) then
             s.global_online
           else listRemove info.username s.global_online,
         pending_disconnects :=
           adel (info.username, info.room) s.pending_disconnects },
       some info) := by
  unfold remove_user_from_tracking
  rw [h]
  rfl

theorem ruft_false_of_alookup_some {sid : Nat} {s : ChatState} {info : UserInfo}
    (h : alookup sid s.online_users = some info) :
    remove_user_from_tracking sid false s =
      (if (adel sid s.online_users).any (fun p =>
            decide (p.2.username = info.username) &&
            decide (p.2.room = info.room)) then
         { s with online_users := adel sid s.online_users }
       else
         { s with
           online_users := adel sid s.online_users,
           pending_disconnects :=
             aset (info.username, info.room) sid s.pending_disconnects },
       some info) := by
  unfold remove_user_from_tracking
  rw [h]
  by_cases hb : (adel sid s.online_users).any (fun p =>
      decide (p.2.username = info.username) &&
      decide (p.2.room = info.room)) <;>
    simp [hb, schedule_user_removal]

theorem rui_online (u r : String) (s : ChatState) :
    (remove_user_immediately u r s).1.online_users = s.online_users := rfl

theorem rui_pending (u r : String) (s : ChatState) :
    (remove_user_immediately u r s).1.pending_disconnects =
      adel (u, r) s.pending_disconnects := rfl

theorem rui_global (u r : String) (s : ChatState) :
    (remove_user_immediately u r s).1.global_online =
      if s.online_users.any (fun p => decide (p.2.username = u)) then
        s.global_online
      else listRemove u s.global_online := rfl

theorem rui_room_users (u r : String) (s : ChatState) :
    (remove_user_immediately u r s).1.room_users =
      removeFromRoom r u s.room_users := rfl

theorem rui_events (u r : String) (s : ChatState) :
    (remove_user_immediately u r s).2 =
      [Event.userLeftEv u (get_room_users r (remove_user_immediately u r s).1)
        (get_global_online (remove_user_immediately u r s).1) r] := rfl

/-! The reachable-state invariant behind claim C3. -/

/-- Inductive invariant for restricted traces: `online_users` keys are
unique, every live entry and every pending-disconnect key for a username
names that username's room `ρ u`, and the global-online iff of the spec
holds. -/
def InvR (ρ : String → String) (s : ChatState) : Prop :=
  (s.online_users.map Prod.fst).Nodup ∧
  (∀ p ∈ s.online_users, p.2.room = ρ p.2.username) ∧
  (∀ q ∈ s.pending_disconnects, q.1.2 = ρ q.1.1) ∧
  (∀ u, u ∈ s.global_online ↔ (livePresence u s ∨ pendingPresence u s))

theorem invR_register (ρ : String → String) (s : ChatState) (sid : Nat)
    (u : String) (hinv : InvR ρ s)
    (hfresh : alookup sid s.online_users = none) :
    InvR ρ (add_user_to_room sid u (ρ u) s) := by
  obtain ⟨hnd, hA1, hA2, hmain⟩ := hinv
  have hou : (add_user_to_room sid u (ρ u) s).online_users =
      s.online_users ++ [(sid, { username := u, room := ρ u })] := by
    rw [add_user_to_room_online, aset_of_alookup_none _ hfresh]
  refine ⟨?_, ?_, ?_, ?_⟩
  · rw [hou, List.map_append]
    rw [List.nodup_append]
    refine ⟨hnd, List.nodup_singleton _, ?_⟩
    intro a ha hb
    rcases List.mem_singleton.mp hb with rfl
    exact alookup_none_key_not_mem hfresh ha
  · intro p hp
    rw [hou] at hp
    rcases List.mem_append.mp hp with hp | hp
    · exact hA1 p hp
    · rcases List.mem_singleton.mp hp with rfl
      rfl
  · intro q hq
    rw [add_user_to_room_pending] at hq
    exact hA2 q ((mem_adel q _ _).mp hq).1
  · intro w
    rw [add_user_to_room_global, mem_listInsert]
    by_cases hw : w = u
    · subst hw
      constructor
      · intro _
        left
        exact ⟨(sid, { username := w, room := ρ w }), by
          rw [hou]; exact List.mem_append.mpr (Or.inr (List.mem_singleton.mpr rfl)),
          rfl⟩
      · intro _
        exact Or.inr rfl
    · have hlive : livePresence w (add_user_to_room sid u (ρ u) s) ↔
          livePresence w s := by
        constructor
        · rintro ⟨p, hp, hpu⟩
          rw [hou] at hp
          rcases List.mem_append.mp hp with hp | hp
          · exact ⟨p, hp, hpu⟩
          · rcases List.mem_singleton.mp hp with rfl
            have huw : u = w := hpu
            exact absurd huw.symm hw
        · rintro ⟨p, hp, hpu⟩
          exact ⟨p, by rw [hou]; exact List.mem_append.mpr (Or.inl hp), hpu⟩
      have hpend : pendingPresence w (add_user_to_room sid u (ρ u) s) ↔
          pendingPresence w s := by
        constructor
        · rintro ⟨q, hq, hqu⟩
          rw [add_user_to_room_pending] at hq
          exact ⟨q, ((mem_adel q _ _).mp hq).1, hqu⟩
        · rintro ⟨q, hq, hqu⟩
          refine ⟨q, ?_, hqu⟩
          rw [add_user_to_room_pending]
          refine (mem_adel q _ _).mpr ⟨hq, ?_⟩
          intro hk
          exact hw (by rw [← hqu, hk])
      rw [hlive, hpend]
      constructor
      · rintro (hg | rfl)
        · exact (hmain w).mp hg
        · exact absurd rfl hw
      · intro h
        exact Or.inl ((hmain w).mpr h)

theorem live_adel_iff {s : ChatState} {sid : Nat} {info : UserInfo} {w : String}
    (hnd : (s.online_users.map Prod.fst).Nodup)
    (halo : alookup sid s.online_users = some info)
    (hw : w ≠ info.username) :
    (∃ p ∈ adel sid s.online_users, p.2.username = w) ↔ livePresence w s := by
  constructor
  · rintro ⟨p, hp, hp1⟩
    exact ⟨p, ((mem_adel p sid s.online_users).mp hp).1, hp1⟩
  · rintro ⟨p, hp, hp1⟩
    refine ⟨p, (mem_adel p sid s.online_users).mpr ⟨hp, ?_⟩, hp1⟩
    intro hps
    have hpmem : (sid, p.2) ∈ s.online_users := by rw [← hps]; exact hp
    have h2 : p.2 = info := nodup_val_unique hnd hpmem (alookup_mem halo)
    apply hw
    rw [← hp1, h2]

theorem pend_adel_key_iff (s : ChatState) (u r w : String) (hw : w ≠ u) :
    (∃ q ∈ adel (u, r) s.pending_disconnects, q.1.1 = w) ↔
      pendingPresence w s := by
  constructor
  · rintro ⟨q, hq, hq1⟩
    exact ⟨q, ((mem_adel q _ _).mp hq).1, hq1⟩
  · rintro ⟨q, hq, hq1⟩
    refine ⟨q, (mem_adel q _ _).mpr ⟨hq, ?_⟩, hq1⟩
    intro hk
    apply hw
    rw [← hq1, hk]

theorem pend_adel_self_none (ρ : String → String) (s : ChatState) (u r : String)
    (hr : r = ρ u)
    (hA2 : ∀ q ∈ s.pending_disconnects, q.1.2 = ρ q.1.1) :
    ¬ ∃ q ∈ adel (u, r) s.pending_disconnects, q.1.1 = u := by
  rintro ⟨q, hq, hq1⟩
  have hq' := (mem_adel q _ _).mp hq
  apply hq'.2
  have h2 : q.1.2 = ρ q.1.1 := hA2 q hq'.1
  have h1 : q.1.1 = u := hq1
  have h3 : q.1.2 = r := by rw [h2, h1, hr]
  rw [← h1, ← h3]

theorem invR_explicit_core (ρ : String → String) (s t : ChatState) (sid : Nat)
    (info : UserInfo)
    (hnd : (s.online_users.map Prod.fst).Nodup)
    (hA1 : ∀ p ∈ s.online_users, p.2.room = ρ p.2.username)
    (hA2 : ∀ q ∈ s.pending_disconnects, q.1.2 = ρ q.1.1)
    (hmain : ∀ u, u ∈ s.global_online ↔ (livePresence u s ∨ pendingPresence u s))
    (halo : alookup sid s.online_users = some info)
    (hou : t.online_users = adel sid s.online_users)
    (hgl : t.global_online =
      if (adel sid s.online_users).any
          (fun p => decide (p.2.username = info.username)) then s.global_online
      else listRemove info.username s.global_online)
    (hpd : t.pending_disconnects =
      adel (info.username, info.room) s.pending_disconnects) :
    InvR ρ t := by
  have hmem : (sid, info) ∈ s.online_users := alookup_mem halo
  have hroom : info.room = ρ info.username := hA1 _ hmem
  refine ⟨?_, ?_, ?_, ?_⟩
  · rw [hou]
    exact List.Nodup.sublist (keys_adel_sublist sid s.online_users) hnd
  · intro p hp
    rw [hou] at hp
    exact hA1 p ((mem_adel p sid s.online_users).mp hp).1
  · intro q hq
    rw [hpd] at hq
    exact hA2 q ((mem_adel q _ s.pending_disconnects).mp hq).1
  · intro w
    have hlive_t : livePresence w t ↔
        ∃ p ∈ adel sid s.online_users, p.2.username = w := by
      unfold livePresence; rw [hou]
    have hpend_t : pendingPresence w t ↔
        ∃ q ∈ adel (info.username, info.room) s.pending_disconnects,
          q.1.1 = w := by
      unfold pendingPresence; rw [hpd]
    rw [hgl, hlive_t, hpend_t]
    by_cases hw : w = info.username
    · subst hw
      have hnp := pend_adel_self_none ρ s info.username info.room hroom hA2
      cases hbo : (adel sid s.online_users).any
          (fun p => decide (p.2.username = info.username)) with
      | true =>
        rw [if_pos rfl]
        have hlv : ∃ p ∈ adel sid s.online_users,
            p.2.username = info.username := by
          rcases List.any_eq_true.mp hbo with ⟨p, hp, hdp⟩
          exact ⟨p, hp, of_decide_eq_true hdp⟩
        constructor
        · intro _
          exact Or.inl hlv
        · intro _
          exact (hmain info.username).mpr (Or.inl ⟨(sid, info), hmem, rfl⟩)
      | false =>
        rw [if_neg (by simp)]
        have hnm : info.username ∉ listRemove info.username s.global_online :=
          fun hm =>
            ((mem_listRemove info.username info.username s.global_online).mp
              hm).2 rfl
        have hnl : ¬ ∃ p ∈ adel sid s.online_users,
            p.2.username = info.username := by
          rintro ⟨p, hp, hp1⟩
          have hco : (adel sid s.online_users).any
              (fun p => decide (p.2.username = info.username)) = true :=
            List.any_eq_true.mpr ⟨p, hp, decide_eq_true hp1⟩
          rw [hbo] at hco
          exact Bool.noConfusion hco
        constructor
        · intro hm
          exact absurd hm hnm
        · rintro (h | h)
          · exact absurd h hnl
          · exact absurd h hnp
    · rw [live_adel_iff hnd halo hw, pend_adel_key_iff s info.username info.room w hw]
      cases hbo : (adel sid s.online_users).any
          (fun p => decide (p.2.username = info.username)) with
      | true =>
        rw [if_pos rfl]
        exact hmain w
      | false =>
        rw [if_neg (by simp), mem_listRemove]
        constructor
        · intro h
          exact (hmain w).mp h.1
        · intro h
          exact ⟨(hmain w).mpr h, hw⟩

theorem invR_graceful_core_still (ρ : String → String) (s t : ChatState)
    (sid : Nat) (info : UserInfo)
    (hnd : (s.online_users.map Prod.fst).Nodup)
    (hA1 : ∀ p ∈ s.online_users, p.2.room = ρ p.2.username)
    (hA2 : ∀ q ∈ s.pending_disconnects, q.1.2 = ρ q.1.1)
    (hmain : ∀ u, u ∈ s.global_online ↔ (livePresence u s ∨ pendingPresence u s))
    (halo : alookup sid s.online_users = some info)
    (hb : (adel sid s.online_users).any (fun p =>
      decide (p.2.username = info.username) &&
      decide (p.2.room = info.room)) = true)
    (hou : t.online_users = adel sid s.online_users)
    (hgl : t.global_online = s.global_online)
    (hpd : t.pending_disconnects = s.pending_disconnects) :
    InvR ρ t := by
  have hmem : (sid, info) ∈ s.online_users := alookup_mem halo
  refine ⟨?_, ?_, ?_, ?_⟩
  · rw [hou]
    exact List.Nodup.sublist (keys_adel_sublist sid s.online_users) hnd
  · intro p hp
    rw [hou] at hp
    exact hA1 p ((mem_adel p sid s.online_users).mp hp).1
  · intro q hq
    rw [hpd] at hq
    exact hA2 q hq
  · intro w
    have hlive_t : livePresence w t ↔
        ∃ p ∈ adel sid s.online_users, p.2.username = w := by
      unfold livePresence; rw [hou]
    have hpend_t : pendingPresence w t ↔ pendingPresence w s := by
      unfold pendingPresence; rw [hpd]
    rw [hgl, hlive_t, hpend_t]
    by_cases hw : w = info.username
    · subst hw
      have hlv : ∃ p ∈ adel sid s.online_users,
          p.2.username = info.username := by
        rcases List.any_eq_true.mp hb with ⟨p, hp, hdp⟩
        rw [Bool.and_eq_true] at hdp
        exact ⟨p, hp, of_decide_eq_true hdp.1⟩
      constructor
      · intro _
        exact Or.inl hlv
      · intro _
        exact (hmain info.username).mpr (Or.inl ⟨(sid, info), hmem, rfl⟩)
    · rw [live_adel_iff hnd halo hw]
      exact hmain w

theorem invR_graceful_core_sched (ρ : String → String) (s t : ChatState)
    (sid : Nat) (info : UserInfo)
    (hnd : (s.online_users.map Prod.fst).Nodup)
    (hA1 : ∀ p ∈ s.online_users, p.2.room = ρ p.2.username)
    (hA2 : ∀ q ∈ s.pending_disconnects, q.1.2 = ρ q.1.1)
    (hmain : ∀ u, u ∈ s.global_online ↔ (livePresence u s ∨ pendingPresence u s))
    (halo : alookup sid s.online_users = some info)
    (hou : t.online_users = adel sid s.online_users)
    (hgl : t.global_online = s.global_online)
    (hpd : t.pending_disconnects =
      aset (info.username, info.room) sid s.pending_disconnects) :
    InvR ρ t := by
  have hmem : (sid, info) ∈ s.online_users := alookup_mem halo
  have hroom : info.room = ρ info.username := hA1 _ hmem
  refine ⟨?_, ?_, ?_, ?_⟩
  · rw [hou]
    exact List.Nodup.sublist (keys_adel_sublist sid s.online_users) hnd
  · intro p hp
    rw [hou] at hp
    exact hA1 p ((mem_adel p sid s.online_users).mp hp).1
  · intro q hq
    rw [hpd] at hq
    by_cases hqk : q.1 = (info.username, info.room)
    · rw [hqk]
      exact hroom
    · exact hA2 q ((mem_aset_of_key_ne sid s.pending_disconnects hqk).mp hq)
  · intro w
    have hlive_t : livePresence w t ↔
        ∃ p ∈ adel sid s.online_users, p.2.username = w := by
      unfold livePresence; rw [hou]
    rw [hgl, hlive_t]
    by_cases hw : w = info.username
    · subst hw
      constructor
      · intro _
        right
        refine ⟨((info.username, info.room), sid), ?_, rfl⟩
        rw [hpd]
        exact mem_aset_self _ _ _
      · intro _
        exact (hmain info.username).mpr (Or.inl ⟨(sid, info), hmem, rfl⟩)
    · have hpw : pendingPresence w t ↔ pendingPresence w s := by
        unfold pendingPresence
        rw [hpd]
        constructor
        · rintro ⟨q, hq, hq1⟩
          refine ⟨q, ?_, hq1⟩
          have hqk : q.1 ≠ (info.username, info.room) := by
            intro hk
            apply hw
            rw [← hq1, hk]
          exact (mem_aset_of_key_ne sid s.pending_disconnects hqk).mp hq
        · rintro ⟨q, hq, hq1⟩
          have hqk : q.1 ≠ (info.username, info.room) := by
            intro hk
            apply hw
            rw [← hq1, hk]
          exact ⟨q, (mem_aset_of_key_ne sid s.pending_disconnects hqk).mpr hq, hq1⟩
      rw [live_adel_iff hnd halo hw, hpw]
      exact hmain w

theorem invR_expire_core (ρ : String → String) (s t : ChatState) (u : String)
    (hnd : (s.online_users.map Prod.fst).Nodup)
    (hA1 : ∀ p ∈ s.online_users, p.2.room = ρ p.2.username)
    (hA2 : ∀ q ∈ s.pending_disconnects, q.1.2 = ρ q.1.1)
    (hmain : ∀ w, w ∈ s.global_online ↔ (livePresence w s ∨ pendingPresence w s))
    (hou : t.online_users = s.online_users)
    (hgl : t.global_online =
      if s.online_users.any (fun p => decide (p.2.username = u)) then
        s.global_online
      else listRemove u s.global_online)
    (hpd : t.pending_disconnects = adel (u, ρ u) s.pending_disconnects) :
    InvR ρ t := by
  refine ⟨?_, ?_, ?_, ?_⟩
  · rw [hou]
    exact hnd
  · intro p hp
    rw [hou] at hp
    exact hA1 p hp
  · intro q hq
    rw [hpd] at hq
    exact hA2 q ((mem_adel q _ s.pending_disconnects).mp hq).1
  · intro w
    have hlive_t : livePresence w t ↔ livePresence w s := by
      unfold livePresence; rw [hou]
    have hpend_t : pendingPresence w t ↔
        ∃ q ∈ adel (u, ρ u) s.pending_disconnects, q.1.1 = w := by
      unfold pendingPresence; rw [hpd]
    rw [hgl, hlive_t, hpend_t]
    by_cases hw : w = u
    · subst hw
      have hnp := pend_adel_self_none ρ s w (ρ w) rfl hA2
      cases hbo : s.online_users.any (fun p => decide (p.2.username = w)) with
      | true =>
        rw [if_pos rfl]
        have hlv : livePresence w s := by
          rcases List.any_eq_true.mp hbo with ⟨p, hp, hdp⟩
          exact ⟨p, hp, of_decide_eq_true hdp⟩
        constructor
        · intro _
          exact Or.inl hlv
        · intro _
          exact (hmain w).mpr (Or.inl hlv)
      | false =>
        rw [if_neg (by simp)]
        have hnm : w ∉ listRemove w s.global_online := fun hm =>
          ((mem_listRemove w w s.global_online).mp hm).2 rfl
        have hnl : ¬ livePresence w s := by
          rintro ⟨p, hp, hp1⟩
          have hco : s.online_users.any
              (fun p => decide (p.2.username = w)) = true :=
            List.any_eq_true.mpr ⟨p, hp, decide_eq_true hp1⟩
          rw [hbo] at hco
          exact Bool.noConfusion hco
        constructor
        · intro hm
          exact absurd hm hnm
        · rintro (h | h)
          · exact absurd h hnl
          · exact absurd h hnp
    · rw [pend_adel_key_iff s u (ρ u) w hw]
      cases hbo : s.online_users.any (fun p => decide (p.2.username = u)) with
      | true =>
        rw [if_pos rfl]
        exact hmain w
      | false =>
        rw [if_neg (by simp), mem_listRemove]
        constructor
        · intro h
          exact (hmain w).mp h.1
        · intro h
          exact ⟨(hmain w).mpr h, hw⟩

theorem invR_initial (ρ : String → String) : InvR ρ initialState := by
  refine ⟨?_, ?_, ?_, ?_⟩ <;>
    simp [initialState, livePresence, pendingPresence]

theorem invR_reachable (ρ : String → String) (s : ChatState)
    (h : ReachableR ρ s) : InvR ρ s := by
  induction h with
  | init => exact invR_initial ρ
  | register sid u hr hfresh ih =>
    rename_i s
    exact invR_register ρ s sid u ih hfresh
  | unregExplicit sid hr ih =>
    rename_i s
    obtain ⟨hnd, hA1, hA2, hmain⟩ := ih
    show InvR ρ (remove_user_from_tracking sid true s).1
    cases halo : alookup sid s.online_users with
    | none =>
      rw [ruft_of_alookup_none true halo]
      exact ⟨hnd, hA1, hA2, hmain⟩
    | some info =>
      rw [ruft_true_of_alookup_some halo]
      exact invR_explicit_core ρ s _ sid info hnd hA1 hA2 hmain halo rfl rfl rfl
  | unregGraceful sid hr ih =>
    rename_i s
    obtain ⟨hnd, hA1, hA2, hmain⟩ := ih
    show InvR ρ (remove_user_from_tracking sid false s).1
    cases halo : alookup sid s.online_users with
    | none =>
      rw [ruft_of_alookup_none false halo]
      exact ⟨hnd, hA1, hA2, hmain⟩
    | some info =>
      rw [ruft_false_of_alookup_some halo]
      cases hbo : (adel sid s.online_users).any (fun p =>
          decide (p.2.username = info.username) &&
          decide (p.2.room = info.room)) with
      | true =>
        rw [if_pos rfl]
        exact invR_graceful_core_still ρ s _ sid info hnd hA1 hA2 hmain halo hbo
          rfl rfl rfl
      | false =>
        rw [if_neg (by simp)]
        exact invR_graceful_core_sched ρ s _ sid info hnd hA1 hA2 hmain halo
          rfl rfl rfl
  | expire u hr ih =>
    rename_i s
    obtain ⟨hnd, hA1, hA2, hmain⟩ := ih
    show InvR ρ (remove_user_immediately u (ρ u) s).1
    exact invR_expire_core ρ s _ u hnd hA1 hA2 hmain rfl rfl rfl

/-! Equation lemmas for the event handlers. -/

theorem hd_flag {sid : Nat} {s : ChatState} (h : sid ∈ s.explicit_leaves) :
    handle_disconnect sid s =
      ({ s with explicit_leaves := listRemove sid s.explicit_leaves }, []) := by
  unfold handle_disconnect
  rw [if_pos h]

theorem hd_noflag_none {sid : Nat} {s : ChatState} (h1 : sid ∉ s.explicit_leaves)
    (h2 : alookup sid s.online_users = none) :
    handle_disconnect sid s = (s, []) := by
  unfold handle_disconnect
  rw [if_neg h1, h2]

theorem hd_noflag_some {sid : Nat} {s : ChatState} {info : UserInfo}
    (h1 : sid ∉ s.explicit_leaves)
    (h2 : alookup sid s.online_users = some info) :
    handle_disconnect sid s =
      ((remove_user_from_tracking sid false s).1, []) := by
  unfold handle_disconnect
  rw [if_neg h1, h2]

theorem ruft_explicit_leaves (sid : Nat) (imm : Bool) (s : ChatState) :
    (remove_user_from_tracking sid imm s).1.explicit_leaves =
      s.explicit_leaves := by
  cases halo : alookup sid s.online_users with
  | none => rw [ruft_of_alookup_none imm halo]
  | some info =>
    cases imm with
    | true => rw [ruft_true_of_alookup_some halo]
    | false =>
      rw [ruft_false_of_alookup_some halo]
      split <;> rfl

theorem handle_leave_eq {sid : Nat} {s : ChatState} {info : UserInfo}
    (h : alookup sid s.online_users = some info) :
    handle_leave sid s =
      ((remove_user_from_tracking sid true
          { s with explicit_leaves := listInsert sid s.explicit_leaves }).1,
       [Event.userLeftEv info.username
          (get_room_users info.room (remove_user_from_tracking sid true
            { s with explicit_leaves := listInsert sid s.explicit_leaves }).1)
          (get_global_online (remove_user_from_tracking sid true
            { s with explicit_leaves := listInsert sid s.explicit_leaves }).1)
          info.room,
        Event.leftRoomEv info.room]) := by
  have h1 : alookup sid
      ({ s with explicit_leaves := listInsert sid s.explicit_leaves } :
        ChatState).online_users = some info := h
  unfold handle_leave
  dsimp only
  rw [ruft_true_of_alookup_some h1]

theorem not_mem_removeFromRoom (room username : String)
    (ru : List (String × List String)) :
    username ∉ (alookup room (removeFromRoom room username ru)).getD [] := by
  unfold removeFromRoom
  cases halo : alookup room ru with
  | none =>
    rw [halo]
    simp
  | some us =>
    dsimp only
    by_cases he : listRemove username us = []
    · rw [if_pos he, alookup_adel_self]
      simp
    · rw [if_neg he, alookup_aset_self]
      simp [mem_listRemove]

theorem add_user_to_room_room_users (sid : Nat) (u r : String) (s : ChatState) :
    (add_user_to_room sid u r s).room_users =
      match alookup r s.room_users with
      | none => aset r [u] s.room_users
      | some us => aset r (listInsert u us) s.room_users := rfl

theorem mem_room_after_add (sid : Nat) (u r : String) (s : ChatState) :
    u ∈ get_room_users r (add_user_to_room sid u r s) := by
  unfold get_room_users
  rw [add_user_to_room_room_users]
  cases halo : alookup r s.room_users with
  | none =>
    rw [alookup_aset_self]
    simp
  | some us =>
    rw [alookup_aset_self]
    simp [mem_listInsert]

theorem handle_join_reject_eq (sid : Nat) (du dr : String) (s : ChatState)
    (hval : ¬(pyStrip du = "" ∨ pyStrip dr = ""))
    (hg : duplicate_guard sid (pyStrip du) (pyStrip dr) s = true) :
    handle_join sid du dr s =
      (s, [Event.errorEv ("Username \"" ++ pyStrip du ++
            "\" is already taken in this room")]) := by
  unfold handle_join
  rw [if_neg hval, if_pos hg]

theorem handle_join_reconnect_eq (sid : Nat) (du dr : String) (s : ChatState)
    (hval : ¬(pyStrip du = "" ∨ pyStrip dr = ""))
    (hp : (alookup (pyStrip du, pyStrip dr) s.pending_disconnects).isSome =
      true) :
    handle_join sid du dr s =
      (add_user_to_room sid (pyStrip du) (pyStrip dr) s,
       [Event.roomJoinedEv (pyStrip dr) (pyStrip du)
          (message_history (pyStrip dr)
            (add_user_to_room sid (pyStrip du) (pyStrip dr) s))
          (get_room_users (pyStrip dr)
            (add_user_to_room sid (pyStrip du) (pyStrip dr) s))
          (get_global_online
            (add_user_to_room sid (pyStrip du) (pyStrip dr) s))]) := by
  have hg : duplicate_guard sid (pyStrip du) (pyStrip dr) s = false := by
    unfold duplicate_guard
    rw [hp]
    simp
  unfold handle_join
  rw [if_neg hval]
  rw [hp, hg]
  simp

theorem handle_join_accept_state (sid : Nat) (du dr : String) (s : ChatState)
    (hval : ¬(pyStrip du = "" ∨ pyStrip dr = ""))
    (hg : duplicate_guard sid (pyStrip du) (pyStrip dr) s = false) :
    (handle_join sid du dr s).1 =
      add_user_to_room sid (pyStrip du) (pyStrip dr) s ∧
    countUserLeft (handle_join sid du dr s).2 = 0 := by
  unfold handle_join
  rw [if_neg hval]
  rw [if_neg (by rw [hg]; exact Bool.false_ne_true)]
  cases hp : (alookup (pyStrip du, pyStrip dr) s.pending_disconnects).isSome with
  | true => exact ⟨by simp, by simp [countUserLeft]⟩
  | false => exact ⟨by simp, by simp [countUserLeft]⟩

/-! Lemmas about the `mark_read` receipt-creation loop. -/

theorem markReadLoop_mem_mono (u room : String) (msgs : List Msg)
    (ids : List Nat) (rcs : List (Nat × String)) (upd : List Nat)
    {rc : Nat × String} (h : rc ∈ rcs) :
    rc ∈ (markReadLoop u room msgs ids rcs upd).1 := by
  induction ids generalizing rcs upd with
  | nil => exact h
  | cons id0 rest ih =>
    unfold markReadLoop
    cases hf : find_message id0 room msgs with
    | none => exact ih rcs upd h
    | some m =>
      dsimp only
      by_cases he : (rcs.any (fun q =>
          decide (q.1 = id0) && decide (q.2 = u))) = true
      · rw [if_pos he]
        exact ih rcs upd h
      · rw [if_neg he]
        exact ih _ _ (List.mem_append.mpr (Or.inl h))

theorem markReadLoop_covers (u room : String) (msgs : List Msg)
    (ids : List Nat) (rcs : List (Nat × String)) (upd : List Nat) :
    ∀ id ∈ ids, find_message id room msgs ≠ none →
      (id, u) ∈ (markReadLoop u room msgs ids rcs upd).1 := by
  induction ids generalizing rcs upd with
  | nil =>
    intro id hid
    simp at hid
  | cons id0 rest ih =>
    intro id hid hfind
    unfold markReadLoop
    rcases List.mem_cons.mp hid with rfl | hid'
    · cases hf : find_message id room msgs with
      | none => exact absurd hf hfind
      | some m =>
        dsimp only
        by_cases he : (rcs.any (fun q =>
            decide (q.1 = id) && decide (q.2 = u))) = true
        · rw [if_pos he]
          rcases List.any_eq_true.mp he with ⟨q, hq, hdq⟩
          rw [Bool.and_eq_true] at hdq
          have hq' : q = (id, u) := by
            rw [← of_decide_eq_true hdq.1, ← of_decide_eq_true hdq.2]
          rw [← hq']
          exact markReadLoop_mem_mono u room msgs rest rcs upd hq
        · rw [if_neg he]
          exact markReadLoop_mem_mono u room msgs rest _ _
            (List.mem_append.mpr (Or.inr (List.mem_singleton.mpr rfl)))
    · cases hf0 : find_message id0 room msgs with
      | none => exact ih rcs upd id hid' hfind
      | some m =>
        dsimp only
        by_cases he : (rcs.any (fun q =>
            decide (q.1 = id0) && decide (q.2 = u))) = true
        · rw [if_pos he]
          exact ih rcs upd id hid' hfind
        · rw [if_neg he]
          exact ih _ _ id hid' hfind

theorem markReadLoop_no_new (u room : String) (msgs : List Msg) :
    ∀ (ids : List Nat) (rcs : List (Nat × String)) (upd : List Nat),
      (∀ id ∈ ids, find_message id room msgs = none ∨ (id, u) ∈ rcs) →
      markReadLoop u room msgs ids rcs upd = (rcs, upd) := by
  intro ids
  induction ids with
  | nil =>
    intro rcs upd _
    rfl
  | cons id0 rest ih =>
    intro rcs upd h
    unfold markReadLoop
    rcases h id0 (List.mem_cons_self _ _) with hf | hq
    · rw [hf]
      exact ih rcs upd (fun id hid => h id (List.mem_cons_of_mem _ hid))
    · cases hf : find_message id0 room msgs with
      | none => exact ih rcs upd (fun id hid => h id (List.mem_cons_of_mem _ hid))
      | some m =>
        dsimp only
        have he : (rcs.any (fun q =>
            decide (q.1 = id0) && decide (q.2 = u))) = true :=
          List.any_eq_true.mpr ⟨(id0, u), hq, by simp⟩
        rw [if_pos he]
        exact ih rcs upd (fun id hid => h id (List.mem_cons_of_mem _ hid))

theorem markReadLoop_nodup (u room : String) (msgs : List Msg) :
    ∀ (ids : List Nat) (rcs : List (Nat × String)) (upd : List Nat),
      rcs.Nodup → (markReadLoop u room msgs ids rcs upd).1.Nodup := by
  intro ids
  induction ids with
  | nil =>
    intro rcs upd h
    exact h
  | cons id0 rest ih =>
    intro rcs upd h
    unfold markReadLoop
    cases hf : find_message id0 room msgs with
    | none => exact ih rcs upd h
    | some m =>
      dsimp only
      by_cases he : (rcs.any (fun q =>
          decide (q.1 = id0) && decide (q.2 = u))) = true
      · rw [if_pos he]
        exact ih rcs upd h
      · rw [if_neg he]
        apply ih
        rw [List.nodup_append]
        refine ⟨h, List.nodup_singleton _, ?_⟩
        intro a ha hb
        rcases List.mem_singleton.mp hb with rfl
        apply he
        exact List.any_eq_true.mpr ⟨(id0, u), ha, by simp⟩

theorem hmr_nil (sid : Nat) (s : ChatState) :
    handle_mark_read sid [] s = (s, []) := by
  unfold handle_mark_read
  rw [if_pos rfl]

theorem hmr_unbound (sid : Nat) (ids : List Nat) (s : ChatState)
    (h : alookup sid s.online_users = none) :
    handle_mark_read sid ids s = (s, []) := by
  unfold handle_mark_read
  by_cases hn : ids = []
  · rw [if_pos hn]
  · rw [if_neg hn, h]

theorem hmr_noop (sid : Nat) (ids : List Nat) (s : ChatState) (info : UserInfo)
    (hn : ids ≠ []) (halo : alookup sid s.online_users = some info)
    (hL : (markReadLoop info.username info.room s.messages ids
      s.receipts []).2 = []) :
    handle_mark_read sid ids s = (s, []) := by
  unfold handle_mark_read
  rw [if_neg hn, halo]
  dsimp only
  rw [if_pos hL]

theorem hmr_frame (sid : Nat) (ids : List Nat) (s : ChatState) :
    (handle_mark_read sid ids s).1.online_users = s.online_users ∧
    (handle_mark_read sid ids s).1.messages = s.messages := by
  unfold handle_mark_read
  by_cases hn : ids = []
  · rw [if_pos hn]
    exact ⟨rfl, rfl⟩
  · rw [if_neg hn]
    cases halo : alookup sid s.online_users with
    | none => exact ⟨rfl, rfl⟩
    | some info =>
      dsimp only
      split
      · exact ⟨rfl, rfl⟩
      · exact ⟨rfl, rfl⟩

theorem hmr_receipts (sid : Nat) (ids : List Nat) (s : ChatState)
    (info : UserInfo) (hn : ids ≠ [])
    (halo : alookup sid s.online_users = some info)
    (hL : (markReadLoop info.username info.room s.messages ids
      s.receipts []).2 ≠ []) :
    (handle_mark_read sid ids s).1.receipts =
      (markReadLoop info.username info.room s.messages ids s.receipts []).1 := by
  unfold handle_mark_read
  rw [if_neg hn, halo]
  dsimp only
  rw [if_neg hL]

/-! Claim theorems. -/

/-- State reached by: alice joins lobby on connection 1, connection 1
disconnects gracefully (a pending disconnect is scheduled), alice rejoins
lobby on connection 2 (the pending disconnect is cancelled). -/
def stateC1 : ChatState :=
  runOps initialState [Op.register 1 "alice" "lobby", Op.unregGraceful 1,
    Op.register 2 "alice" "lobby"]

/-- Claim C1 fails on the code: in a state where the pending disconnect for
("alice", "lobby") was cancelled by a reconnect, `remove_user_immediately`
is not a no-op — it still removes alice from the room's membership set
(deleting the room entry) and still emits a `user_left` event.  The
function never checks that the PendingDisconnect is current. -/
theorem C1_expire_not_noop_when_pending_cancelled :
    alookup ("alice", "lobby") stateC1.pending_disconnects = none ∧
    get_room_users "lobby" stateC1 = ["alice"] ∧
    get_room_users "lobby" (remove_user_immediately "alice" "lobby" stateC1).1 = [] ∧
    (remove_user_immediately "alice" "lobby" stateC1).2 =
      [Event.userLeftEv "alice" [] ["alice"] "lobby"] := by
  decide

/-- State in which alice holds two live connections (1 and 2) in lobby. -/
def stateC2 : ChatState :=
  { online_users := [(1, { username := "alice", room := "lobby" }),
                     (2, { username := "alice", room := "lobby" })],
    room_users := [("lobby", ["alice"])], global_online := ["alice"],
    pending_disconnects := [], explicit_leaves := [],
    messages := [], receipts := [] }

/-- Claim C2 as stated is false: alice has a second live connection (2) in
lobby, yet the explicit removal of connection 1 still deletes alice from
lobby's membership set. -/
theorem C2_counterexample :
    alookup 2 stateC2.online_users =
      some { username := "alice", room := "lobby" } ∧
    (remove_user_from_tracking 1 true stateC2).2 =
      some { username := "alice", room := "lobby" } ∧
    "alice" ∉ get_room_users "lobby" (remove_user_from_tracking 1 true stateC2).1 := by
  decide

/-- Claim C2 amended: explicit leave deletes the connection's entry and
removes the username from the room's membership set unconditionally —
without checking for other live connections of the same user in the room.
The username stays in the global set iff some other live entry carries
it, and the pending disconnect for (username, room) is cancelled. -/
theorem C2_explicit_leave_amended (s : ChatState) (sid : Nat) (u r : String)
    (hsid : alookup sid s.online_users = some { username := u, room := r }) :
    (remove_user_from_tracking sid true s).2 =
      some { username := u, room := r } ∧
    (remove_user_from_tracking sid true s).1.online_users =
      adel sid s.online_users ∧
    (remove_user_from_tracking sid true s).1.room_users =
      removeFromRoom r u s.room_users ∧
    u ∉ get_room_users r (remove_user_from_tracking sid true s).1 ∧
    (remove_user_from_tracking sid true s).1.global_online =
      (if (adel sid s.online_users).any (fun p => decide (p.2.username = u))
       then s.global_online else listRemove u s.global_online) ∧
    (remove_user_from_tracking sid true s).1.pending_disconnects =
      adel (u, r) s.pending_disconnects := by
  rw [ruft_true_of_alookup_some hsid]
  refine ⟨rfl, rfl, rfl, ?_, rfl, rfl⟩
  exact not_mem_removeFromRoom r u s.room_users

/-- Witness for the amended C2 at the two-connection state. -/
theorem C2_explicit_leave_amended_witness :
    (remove_user_from_tracking 1 true stateC2).2 =
      some { username := "alice", room := "lobby" } ∧
    (remove_user_from_tracking 1 true stateC2).1.online_users =
      adel 1 stateC2.online_users ∧
    (remove_user_from_tracking 1 true stateC2).1.room_users =
      removeFromRoom "lobby" "alice" stateC2.room_users ∧
    "alice" ∉ get_room_users "lobby" (remove_user_from_tracking 1 true stateC2).1 ∧
    (remove_user_from_tracking 1 true stateC2).1.global_online =
      (if (adel 1 stateC2.online_users).any
          (fun p => decide (p.2.username = "alice"))
       then stateC2.global_online else listRemove "alice" stateC2.global_online) ∧
    (remove_user_from_tracking 1 true stateC2).1.pending_disconnects =
      adel ("alice", "lobby") stateC2.pending_disconnects :=
  C2_explicit_leave_amended stateC2 1 "alice" "lobby" (by decide)

/-- Trace violating C3 by connection-id reuse: register(1, bob, r1) then
register(1, alice, r2) overwrites bob's entry while bob stays global. -/
def traceC3a : List Op := [Op.register 1 "bob" "r1", Op.register 1 "alice" "r2"]

/-- Trace violating C3 across two rooms: a pending disconnect for
(alice, r1) survives while an explicit leave in r2 drops alice from the
global set. -/
def traceC3b : List Op := [Op.register 1 "alice" "r1", Op.unregGraceful 1,
  Op.register 2 "alice" "r2", Op.unregExplicit 2]

/-- Claim C3 as stated is false: after `traceC3a` bob is in the global set
with neither a live entry nor a pending disconnect, and after `traceC3b`
alice has a pending disconnect but is not in the global set. -/
theorem C3_counterexample :
    ¬("bob" ∈ (runOps initialState traceC3a).global_online ↔
        (livePresence "bob" (runOps initialState traceC3a) ∨
         pendingPresence "bob" (runOps initialState traceC3a))) ∧
    ¬("alice" ∈ (runOps initialState traceC3b).global_online ↔
        (livePresence "alice" (runOps initialState traceC3b) ∨
         pendingPresence "alice" (runOps initialState traceC3b))) := by
  decide

/-- Claim C3 amended: the global-online iff invariant holds in every state
reachable by register / explicit-unregister / graceful-unregister / expire
traces in which each register uses a connection id with no current entry,
and all register and expire operations for a username name a single room
`ρ u` for that username. -/
theorem C3_global_iff_on_restricted_traces (ρ : String → String)
    (s : ChatState) (h : ReachableR ρ s) (u : String) :
    u ∈ s.global_online ↔ (livePresence u s ∨ pendingPresence u s) :=
  (invR_reachable ρ s h).2.2.2 u

/-- Witness for the amended C3 after one register step. -/
theorem C3_global_iff_on_restricted_traces_witness :
    "alice" ∈ (applyOp initialState (Op.register 1 "alice" "lobby")).global_online ↔
      (livePresence "alice" (applyOp initialState (Op.register 1 "alice" "lobby")) ∨
       pendingPresence "alice"
         (applyOp initialState (Op.register 1 "alice" "lobby"))) :=
  C3_global_iff_on_restricted_traces (fun _ => "lobby") _
    (ReachableR.register 1 "alice" ReachableR.init rfl) "alice"

theorem any_adel_eq_false_of_only (s : ChatState) (sid : Nat) (u r : String)
    (honly : ∀ p ∈ s.online_users, p.2.username = u → p.2.room = r →
      p.1 = sid) :
    (adel sid s.online_users).any (fun p =>
      decide (p.2.username = u) && decide (p.2.room = r)) = false := by
  rw [List.any_eq_false]
  intro p hp hc
  rw [Bool.and_eq_true] at hc
  have hm := (mem_adel p sid s.online_users).mp hp
  exact hm.2 (honly p hm.1 (of_decide_eq_true hc.1) (of_decide_eq_true hc.2))

theorem any_adel_username_eq_false_of_only (s : ChatState) (sid : Nat)
    (u : String)
    (honly : ∀ p ∈ s.online_users, p.2.username = u → p.1 = sid) :
    (adel sid s.online_users).any (fun p =>
      decide (p.2.username = u)) = false := by
  rw [List.any_eq_false]
  intro p hp hc
  have hm := (mem_adel p sid s.online_users).mp hp
  exact hm.2 (honly p hm.1 (of_decide_eq_true hc))

theorem hd_schedules (s : ChatState) (sid : Nat) (u r : String)
    (hflag : sid ∉ s.explicit_leaves)
    (hsid : alookup sid s.online_users = some { username := u, room := r })
    (hb : (adel sid s.online_users).any (fun p =>
      decide (p.2.username = u) && decide (p.2.room = r)) = false) :
    handle_disconnect sid s =
      ({ s with online_users := adel sid s.online_users,
                pending_disconnects :=
                  aset (u, r) sid s.pending_disconnects }, []) := by
  rw [hd_noflag_some hflag hsid, ruft_false_of_alookup_some hsid]
  dsimp only
  rw [if_neg (by rw [hb]; exact Bool.false_ne_true)]

/-- Claim C4: join → disconnect → rejoin before the grace timer fires.
The disconnect emits nothing; the rejoin is classified as a reconnect
(the pending disconnect exists), so it emits only `room_joined` — zero
`user_left` and zero additional `user_joined` events — and the pending
disconnect for (username, room) is cancelled by the rejoin. -/
theorem C4_reconnect_within_grace_is_silent (s : ChatState) (sid1 sid2 : Nat)
    (u r : String) (hu : pyStrip u = u) (hr : pyStrip r = r)
    (hune : u ≠ "") (hrne : r ≠ "")
    (hflag : sid1 ∉ s.explicit_leaves)
    (hsid : alookup sid1 s.online_users = some { username := u, room := r })
    (honly : ∀ p ∈ s.online_users, p.2.username = u → p.2.room = r →
      p.1 = sid1) :
    (handle_disconnect sid1 s).2 = [] ∧
    countUserLeft ((handle_disconnect sid1 s).2 ++
      (handle_join sid2 u r (handle_disconnect sid1 s).1).2) = 0 ∧
    countUserJoined ((handle_disconnect sid1 s).2 ++
      (handle_join sid2 u r (handle_disconnect sid1 s).1).2) = 0 ∧
    alookup (u, r)
      (handle_join sid2 u r
        (handle_disconnect sid1 s).1).1.pending_disconnects = none := by
  have hb := any_adel_eq_false_of_only s sid1 u r honly
  have hdq := hd_schedules s sid1 u r hflag hsid hb
  have hval : ¬(pyStrip u = "" ∨ pyStrip r = "") := by
    rw [hu, hr]
    exact not_or.mpr ⟨hune, hrne⟩
  have hp : (alookup (pyStrip u, pyStrip r)
      ({ s with online_users := adel sid1 s.online_users,
                pending_disconnects :=
                  aset (u, r) sid1 s.pending_disconnects } :
        ChatState).pending_disconnects).isSome = true := by
    rw [hu, hr]
    show (alookup (u, r) (aset (u, r) sid1 s.pending_disconnects)).isSome = true
    rw [alookup_aset_self]
    rfl
  have hjq := handle_join_reconnect_eq sid2 u r _ hval hp
  rw [hu, hr] at hjq
  refine ⟨?_, ?_, ?_, ?_⟩
  · rw [hdq]
  · rw [hdq]
    dsimp only
    rw [hjq]
    simp [countUserLeft]
  · rw [hdq]
    dsimp only
    rw [hjq]
    simp [countUserJoined]
  · rw [hdq]
    dsimp only
    rw [hjq]
    dsimp only
    rw [add_user_to_room_pending]
    exact alookup_adel_self _ _

/-- Claim C5: a user with a single live connection disconnects
non-explicitly; the disconnect emits nothing, the grace-timer expiry emits
exactly one `user_left`, and afterwards the username is absent from both
the room snapshot and the global snapshot. -/
theorem C5_grace_expiry_announces_once (s : ChatState) (sid : Nat)
    (u r : String)
    (hflag : sid ∉ s.explicit_leaves)
    (hsid : alookup sid s.online_users = some { username := u, room := r })
    (honly : ∀ p ∈ s.online_users, p.2.username = u → p.1 = sid) :
    (handle_disconnect sid s).2 = [] ∧
    countUserLeft ((handle_disconnect sid s).2 ++
      (remove_user_immediately u r (handle_disconnect sid s).1).2) = 1 ∧
    u ∉ get_room_users r
      (remove_user_immediately u r (handle_disconnect sid s).1).1 ∧
    u ∉ get_global_online
      (remove_user_immediately u r (handle_disconnect sid s).1).1 := by
  have hbroom : (adel sid s.online_users).any (fun p =>
      decide (p.2.username = u) && decide (p.2.room = r)) = false := by
    apply any_adel_eq_false_of_only
    intro p hp h1 _
    exact honly p hp h1
  have hb2 := any_adel_username_eq_false_of_only s sid u honly
  have hdq := hd_schedules s sid u r hflag hsid hbroom
  refine ⟨?_, ?_, ?_, ?_⟩
  · rw [hdq]
  · rw [hdq]
    dsimp only
    rw [rui_events]
    simp [countUserLeft]
  · rw [hdq]
    dsimp only
    unfold get_room_users
    rw [rui_room_users]
    exact not_mem_removeFromRoom r u _
  · rw [hdq]
    dsimp only
    unfold get_global_online
    rw [rui_global]
    dsimp only
    rw [if_neg (by rw [hb2]; exact Bool.false_ne_true)]
    simp [mem_listRemove]

/-- Claim C6: a non-explicit disconnect of one of two or more live
connections of the same user in the same room removes only that
connection's entry: room membership, the global set and the pending map
are unchanged (no grace timer is created) and no event is emitted. -/
theorem C6_multi_connection_disconnect_frame (s : ChatState)
    (sid sid' : Nat) (u r : String)
    (hflag : sid ∉ s.explicit_leaves)
    (hsid : alookup sid s.online_users = some { username := u, room := r })
    (hne : sid' ≠ sid)
    (hsid' : alookup sid' s.online_users = some { username := u, room := r }) :
    (handle_disconnect sid s).1.online_users = adel sid s.online_users ∧
    (handle_disconnect sid s).1.room_users = s.room_users ∧
    (handle_disconnect sid s).1.global_online = s.global_online ∧
    (handle_disconnect sid s).1.pending_disconnects = s.pending_disconnects ∧
    (handle_disconnect sid s).2 = [] := by
  have hb : (adel sid s.online_users).any (fun p =>
      decide (p.2.username = u) && decide (p.2.room = r)) = true :=
    List.any_eq_true.mpr ⟨(sid', { username := u, room := r }),
      (mem_adel _ _ _).mpr ⟨alookup_mem hsid', hne⟩, by simp⟩
  have hdq : handle_disconnect sid s =
      ({ s with online_users := adel sid s.online_users }, []) := by
    rw [hd_noflag_some hflag hsid, ruft_false_of_alookup_some hsid]
    dsimp only
    rw [if_pos hb]
  rw [hdq]
  exact ⟨rfl, rfl, rfl, rfl, rfl⟩

/-- Reachable state with a live duplicate connection but empty room
registry: alice joins lobby on connection 1, disconnects, rejoins on
connection 2 (cancelling the pending disconnect), and then the
already-scheduled grace timer fires anyway.  The expiry removes alice
from `room_users` while her live entry on connection 2 survives. -/
def stateC7race : ChatState :=
  (remove_user_immediately "alice" "lobby"
    (runOps initialState [Op.register 1 "alice" "lobby", Op.unregGraceful 1,
      Op.register 2 "alice" "lobby"])).1

/-- Claim C7 as stated is false: the duplicate-username guard consults
`room_users` before scanning live connections, so in `stateC7race` —
where a distinct live connection (id 2) holds ("alice", "lobby") and no
pending disconnect exists, but the room's membership set is empty — a
join by connection 3 with the same username is accepted: the entry for
connection 3 is registered (state mutated) and a `user_joined` broadcast
is emitted, instead of the claimed rejection with no state change. -/
theorem C7_counterexample :
    alookup 2 stateC7race.online_users =
      some { username := "alice", room := "lobby" } ∧
    alookup ("alice", "lobby") stateC7race.pending_disconnects = none ∧
    alookup 3 (handle_join 3 "alice" "lobby" stateC7race).1.online_users =
      some { username := "alice", room := "lobby" } ∧
    countUserJoined (handle_join 3 "alice" "lobby" stateC7race).2 = 1 := by
  decide

/-- Claim C7 amended: a join with a username held in the room by a
distinct live connection, where the username is also present in the
room's membership set (the guard checks `room_users` first) and no
pending disconnect exists, is rejected: the state is returned unchanged
and the only event is the error sent to the requester. -/
theorem C7_duplicate_username_join_rejected (s : ChatState) (sid sid' : Nat)
    (u r : String) (hu : pyStrip u = u) (hr : pyStrip r = r)
    (hune : u ≠ "") (hrne : r ≠ "")
    (hpend : alookup (u, r) s.pending_disconnects = none)
    (hroom : ∃ us, alookup r s.room_users = some us ∧ u ∈ us)
    (hne : sid' ≠ sid)
    (hsid' : alookup sid' s.online_users = some { username := u, room := r }) :
    handle_join sid u r s =
      (s, [Event.errorEv ("Username \"" ++ u ++
        "\" is already taken in this room")]) := by
  have hval : ¬(pyStrip u = "" ∨ pyStrip r = "") := by
    rw [hu, hr]
    exact not_or.mpr ⟨hune, hrne⟩
  have hg : duplicate_guard sid (pyStrip u) (pyStrip r) s = true := by
    rw [hu, hr]
    unfold duplicate_guard
    obtain ⟨us, hus, humem⟩ := hroom
    rw [hus, hpend]
    dsimp only
    have h1 : decide (u ∈ us) = true := decide_eq_true humem
    have h2 : s.online_users.any (fun p =>
        decide (p.2.username = u) && decide (p.2.room = r) &&
        decide (p.1 ≠ sid)) = true :=
      List.any_eq_true.mpr ⟨(sid', { username := u, room := r }),
        alookup_mem hsid', by simp [hne]⟩
    rw [h1, h2]
    rfl
  have hrej := handle_join_reject_eq sid u r s hval hg
  rw [hu] at hrej
  exact hrej

/-- Claim C9: an explicit leave followed by the transport disconnect for
the same connection broadcasts exactly one `user_left` in total: the
disconnect consumes the explicit-leave flag, emits nothing, and changes
nothing but that flag. -/
theorem C9_leave_then_disconnect_single_broadcast (s : ChatState) (sid : Nat)
    (u r : String)
    (hsid : alookup sid s.online_users = some { username := u, room := r }) :
    countUserLeft ((handle_leave sid s).2 ++
      (handle_disconnect sid (handle_leave sid s).1).2) = 1 ∧
    (handle_disconnect sid (handle_leave sid s).1).2 = [] ∧
    (handle_disconnect sid (handle_leave sid s).1).1 =
      { (handle_leave sid s).1 with
        explicit_leaves :=
          listRemove sid (handle_leave sid s).1.explicit_leaves } := by
  have hlv := handle_leave_eq hsid
  have hexp : (handle_leave sid s).1.explicit_leaves =
      listInsert sid s.explicit_leaves := by
    rw [hlv]
    dsimp only
    rw [ruft_explicit_leaves]
  have hmem : sid ∈ (handle_leave sid s).1.explicit_leaves := by
    rw [hexp]
    exact (mem_listInsert sid sid s.explicit_leaves).mpr (Or.inr rfl)
  refine ⟨?_, ?_, ?_⟩
  · rw [hd_flag hmem, hlv]
    simp [countUserLeft]
  · rw [hd_flag hmem]
  · rw [hd_flag hmem]

/-- Claim C10: an accepted join for a different room B overwrites the
connection's entry to (username, B) and adds the username to room B, but
performs no removal for room A: the old username stays in room A's set
and in the global set, no `user_left` is emitted, and no grace timer is
scheduled (the pending map only loses the key (username, B)). -/
theorem C10_join_other_room_no_cleanup (s : ChatState) (sid : Nat)
    (u A u' B : String)
    (hu' : pyStrip u' = u') (hB : pyStrip B = B)
    (hune : u' ≠ "") (hBne : B ≠ "")
    (hsid : alookup sid s.online_users = some { username := u, room := A })
    (hAB : B ≠ A)
    (hg : duplicate_guard sid u' B s = false)
    (huroom : u ∈ get_room_users A s)
    (huglob : u ∈ s.global_online) :
    alookup sid (handle_join sid u' B s).1.online_users =
      some { username := u', room := B } ∧
    u' ∈ get_room_users B (handle_join sid u' B s).1 ∧
    u ∈ get_room_users A (handle_join sid u' B s).1 ∧
    u ∈ (handle_join sid u' B s).1.global_online ∧
    countUserLeft (handle_join sid u' B s).2 = 0 ∧
    (handle_join sid u' B s).1.pending_disconnects =
      adel (u', B) s.pending_disconnects ∧
    alookup (u, A) (handle_join sid u' B s).1.pending_disconnects =
      alookup (u, A) s.pending_disconnects := by
  have hval : ¬(pyStrip u' = "" ∨ pyStrip B = "") := by
    rw [hu', hB]
    exact not_or.mpr ⟨hune, hBne⟩
  have hg' : duplicate_guard sid (pyStrip u') (pyStrip B) s = false := by
    rw [hu', hB]
    exact hg
  have hacc := handle_join_accept_state sid u' B s hval hg'
  rw [hu', hB] at hacc
  obtain ⟨hst, hcnt⟩ := hacc
  have hBA : A ≠ B := fun hh => hAB hh.symm
  refine ⟨?_, ?_, ?_, ?_, hcnt, ?_, ?_⟩
  · rw [hst, add_user_to_room_online, alookup_aset_self]
  · rw [hst]
    exact mem_room_after_add sid u' B s
  · rw [hst]
    unfold get_room_users at huroom ⊢
    rw [add_user_to_room_room_users]
    cases halo : alookup B s.room_users with
    | none =>
      rw [alookup_aset_ne _ _ hBA]
      exact huroom
    | some us =>
      rw [alookup_aset_ne _ _ hBA]
      exact huroom
  · rw [hst, add_user_to_room_global, mem_listInsert]
    exact Or.inl huglob
  · rw [hst, add_user_to_room_pending]
  · rw [hst, add_user_to_room_pending]
    exact alookup_adel_ne _ (fun hh => hAB (congrArg Prod.snd hh).symm)

/-- Claim C8: `mark_read` is idempotent — running the same call a second
time changes no receipt and emits no broadcast; receipts stay
duplicate-free (at most one per (message id, username) pair); and a batch
whose ids all miss the caller's room is a silent no-op. -/
theorem C8_mark_read_idempotent_and_skips :
    (∀ (s : ChatState) (sid : Nat) (ids : List Nat),
        handle_mark_read sid ids (handle_mark_read sid ids s).1 =
          ((handle_mark_read sid ids s).1, [])) ∧
    (∀ (s : ChatState) (sid : Nat) (ids : List Nat),
        s.receipts.Nodup → (handle_mark_read sid ids s).1.receipts.Nodup) ∧
    (∀ (s : ChatState) (sid : Nat) (ids : List Nat) (info : UserInfo),
        alookup sid s.online_users = some info →
        (∀ id ∈ ids, find_message id info.room s.messages = none) →
        handle_mark_read sid ids s = (s, [])) := by
  refine ⟨?_, ?_, ?_⟩
  · intro s sid ids
    by_cases hn : ids = []
    · subst hn
      rw [hmr_nil sid s]
      dsimp only
      exact hmr_nil sid s
    · cases halo : alookup sid s.online_users with
      | none =>
        rw [hmr_unbound sid ids s halo]
        dsimp only
        exact hmr_unbound sid ids s halo
      | some info =>
        by_cases hL : (markReadLoop info.username info.room s.messages ids
            s.receipts []).2 = []
        · rw [hmr_noop sid ids s info hn halo hL]
          dsimp only
          exact hmr_noop sid ids s info hn halo hL
        · have hon := (hmr_frame sid ids s).1
          have hms := (hmr_frame sid ids s).2
          have hrc := hmr_receipts sid ids s info hn halo hL
          have halo1 : alookup sid
              (handle_mark_read sid ids s).1.online_users = some info := by
            rw [hon]
            exact halo
          have hcov : ∀ id ∈ ids,
              find_message id info.room s.messages = none ∨
              (id, info.username) ∈ (markReadLoop info.username info.room
                s.messages ids s.receipts []).1 := by
            intro id hid
            cases hf : find_message id info.room s.messages with
            | none => exact Or.inl rfl
            | some m =>
              exact Or.inr (markReadLoop_covers info.username info.room
                s.messages ids s.receipts [] id hid (by simp [hf]))
          have hloop2 : markReadLoop info.username info.room
              (handle_mark_read sid ids s).1.messages ids
              (handle_mark_read sid ids s).1.receipts [] =
              ((handle_mark_read sid ids s).1.receipts, []) := by
            rw [hms, hrc]
            exact markReadLoop_no_new info.username info.room s.messages ids
              _ [] hcov
          exact hmr_noop sid ids (handle_mark_read sid ids s).1 info hn halo1
            (by rw [hloop2])
  · intro s sid ids h
    by_cases hn : ids = []
    · subst hn
      rw [hmr_nil sid s]
      exact h
    · cases halo : alookup sid s.online_users with
      | none =>
        rw [hmr_unbound sid ids s halo]
        exact h
      | some info =>
        by_cases hL : (markReadLoop info.username info.room s.messages ids
            s.receipts []).2 = []
        · rw [hmr_noop sid ids s info hn halo hL]
          exact h
        · rw [hmr_receipts sid ids s info hn halo hL]
          exact markReadLoop_nodup info.username info.room s.messages ids
            s.receipts [] h
  · intro s sid ids info halo hall
    by_cases hn : ids = []
    · subst hn
      exact hmr_nil sid s
    · have hno : markReadLoop info.username info.room s.messages ids
          s.receipts [] = (s.receipts, []) :=
        markReadLoop_no_new info.username info.room s.messages ids s.receipts
          [] (fun id hid => Or.inl (hall id hid))
      exact hmr_noop sid ids s info hn halo (by rw [hno])

/-- Single live connection of alice in lobby. -/
def stateC4 : ChatState :=
  { online_users := [(1, { username := "alice", room := "lobby" })],
    room_users := [("lobby", ["alice"])], global_online := ["alice"],
    pending_disconnects := [], explicit_leaves := [],
    messages := [], receipts := [] }

/-- Witness for C4 at the single-connection state. -/
theorem C4_reconnect_within_grace_is_silent_witness :
    (handle_disconnect 1 stateC4).2 = [] ∧
    countUserLeft ((handle_disconnect 1 stateC4).2 ++
      (handle_join 2 "alice" "lobby" (handle_disconnect 1 stateC4).1).2) = 0 ∧
    countUserJoined ((handle_disconnect 1 stateC4).2 ++
      (handle_join 2 "alice" "lobby" (handle_disconnect 1 stateC4).1).2) = 0 ∧
    alookup ("alice", "lobby")
      (handle_join 2 "alice" "lobby"
        (handle_disconnect 1 stateC4).1).1.pending_disconnects = none :=
  C4_reconnect_within_grace_is_silent stateC4 1 2 "alice" "lobby" (by decide)
    (by decide) (by decide) (by decide) (by decide) (by decide) (by decide)

/-- Single live connection of alice in lobby, for the C5 witness. -/
def stateC5 : ChatState :=
  { online_users := [(1, { username := "alice", room := "lobby" })],
    room_users := [("lobby", ["alice"])], global_online := ["alice"],
    pending_disconnects := [], explicit_leaves := [],
    messages := [], receipts := [] }

/-- Witness for C5 at the single-connection state. -/
theorem C5_grace_expiry_announces_once_witness :
    (handle_disconnect 1 stateC5).2 = [] ∧
    countUserLeft ((handle_disconnect 1 stateC5).2 ++
      (remove_user_immediately "alice" "lobby"
        (handle_disconnect 1 stateC5).1).2) = 1 ∧
    "alice" ∉ get_room_users "lobby"
      (remove_user_immediately "alice" "lobby"
        (handle_disconnect 1 stateC5).1).1 ∧
    "alice" ∉ get_global_online
      (remove_user_immediately "alice" "lobby"
        (handle_disconnect 1 stateC5).1).1 :=
  C5_grace_expiry_announces_once stateC5 1 "alice" "lobby" (by decide)
    (by decide) (by decide)

/-- Alice holds two live connections (1 and 2) in lobby, for the C6
witness. -/
def stateC6 : ChatState :=
  { online_users := [(1, { username := "alice", room := "lobby" }),
                     (2, { username := "alice", room := "lobby" })],
    room_users := [("lobby", ["alice"])], global_online := ["alice"],
    pending_disconnects := [], explicit_leaves := [],
    messages := [], receipts := [] }

/-- Witness for C6 at the two-connection state. -/
theorem C6_multi_connection_disconnect_frame_witness :
    (handle_disconnect 1 stateC6).1.online_users = adel 1 stateC6.online_users ∧
    (handle_disconnect 1 stateC6).1.room_users = stateC6.room_users ∧
    (handle_disconnect 1 stateC6).1.global_online = stateC6.global_online ∧
    (handle_disconnect 1 stateC6).1.pending_disconnects =
      stateC6.pending_disconnects ∧
    (handle_disconnect 1 stateC6).2 = [] :=
  C6_multi_connection_disconnect_frame stateC6 1 2 "alice" "lobby" (by decide)
    (by decide) (by decide) (by decide)

/-- Alice live in lobby on connection 1, no pending disconnect, for the C7
witness: connection 2 tries to join lobby as alice. -/
def stateC7 : ChatState :=
  { online_users := [(1, { username := "alice", room := "lobby" })],
    room_users := [("lobby", ["alice"])], global_online := ["alice"],
    pending_disconnects := [], explicit_leaves := [],
    messages := [], receipts := [] }

/-- Witness for C7 at the occupied-username state. -/
theorem C7_duplicate_username_join_rejected_witness :
    handle_join 2 "alice" "lobby" stateC7 =
      (stateC7, [Event.errorEv
        ("Username \"" ++ "alice" ++ "\" is already taken in this room")]) :=
  C7_duplicate_username_join_rejected stateC7 2 1 "alice" "lobby" (by decide)
    (by decide) (by decide) (by decide) (by decide)
    ⟨["alice"], rfl, by decide⟩ (by decide) (by decide)

/-- Single live connection of alice in lobby, for the C9 witness. -/
def stateC9 : ChatState :=
  { online_users := [(1, { username := "alice", room := "lobby" })],
    room_users := [("lobby", ["alice"])], global_online := ["alice"],
    pending_disconnects := [], explicit_leaves := [],
    messages := [], receipts := [] }

/-- Witness for C9 at the single-connection state. -/
theorem C9_leave_then_disconnect_single_broadcast_witness :
    countUserLeft ((handle_leave 1 stateC9).2 ++
      (handle_disconnect 1 (handle_leave 1 stateC9).1).2) = 1 ∧
    (handle_disconnect 1 (handle_leave 1 stateC9).1).2 = [] ∧
    (handle_disconnect 1 (handle_leave 1 stateC9).1).1 =
      { (handle_leave 1 stateC9).1 with
        explicit_leaves :=
          listRemove 1 (handle_leave 1 stateC9).1.explicit_leaves } :=
  C9_leave_then_disconnect_single_broadcast stateC9 1 "alice" "lobby"
    (by decide)

/-- Alice live in roomA on connection 1, for the C10 witness: the same
connection joins roomB. -/
def stateC10 : ChatState :=
  { online_users := [(1, { username := "alice", room := "roomA" })],
    room_users := [("roomA", ["alice"])], global_online := ["alice"],
    pending_disconnects := [], explicit_leaves := [],
    messages := [], receipts := [] }

/-- Witness for C10 at the one-room state. -/
theorem C10_join_other_room_no_cleanup_witness :
    alookup 1 (handle_join 1 "alice" "roomB" stateC10).1.online_users =
      some { username := "alice", room := "roomB" } ∧
    "alice" ∈ get_room_users "roomB" (handle_join 1 "alice" "roomB" stateC10).1 ∧
    "alice" ∈ get_room_users "roomA" (handle_join 1 "alice" "roomB" stateC10).1 ∧
    "alice" ∈ (handle_join 1 "alice" "roomB" stateC10).1.global_online ∧
    countUserLeft (handle_join 1 "alice" "roomB" stateC10).2 = 0 ∧
    (handle_join 1 "alice" "roomB" stateC10).1.pending_disconnects =
      adel ("alice", "roomB") stateC10.pending_disconnects ∧
    alookup ("alice", "roomA")
      (handle_join 1 "alice" "roomB" stateC10).1.pending_disconnects =
      alookup ("alice", "roomA") stateC10.pending_disconnects :=
  C10_join_other_room_no_cleanup stateC10 1 "alice" "roomA" "alice" "roomB"
    (by decide) (by decide) (by decide) (by decide) (by decide) (by decide)
    (by decide) (by decide) (by decide)

/-- Alice in lobby with one stored message (id 5) by bob, for the C8
witness. -/
def stateC8 : ChatState :=
  { online_users := [(1, { username := "alice", room := "lobby" })],
    room_users := [("lobby", ["alice"])], global_online := ["alice"],
    pending_disconnects := [], explicit_leaves := [],
    messages := [{ id := 5, room := "lobby", username := "bob",
                   content := "hi", created_at := 0 }],
    receipts := [] }

/-- Witness for C8: a repeated mark_read of message 5 is a no-op with no
broadcast, and marking the nonexistent id 7 is a silent no-op. -/
theorem C8_mark_read_idempotent_and_skips_witness :
    handle_mark_read 1 [5] (handle_mark_read 1 [5] stateC8).1 =
      ((handle_mark_read 1 [5] stateC8).1, []) ∧
    handle_mark_read 1 [7] stateC8 = (stateC8, []) :=
  ⟨C8_mark_read_idempotent_and_skips.1 stateC8 1 [5],
   C8_mark_read_idempotent_and_skips.2.2 stateC8 1 [7]
     { username := "alice", room := "lobby" } (by decide) (by decide)⟩
